import Mathlib

/-!
Shallow embedding of `view_database.py`, the read-only database viewer of the
health-assistant repository, together with proofs about its operations.

The store is an SQLite file with two tables, `users` and `appointments`.
We embed a snapshot of the store as two Lean lists and each viewer operation
as a pure function from the store to the data it renders.  SQLite TEXT
comparison (the default BINARY collation, used by `ORDER BY` on the `date`,
`time`, `created_at` and `booked_at` columns) is embedded as a structurally
recursive lexicographic comparison on code points.
-/

namespace ViewDatabase

/-- A row of the `users` table.  `age` and `bio` are nullable columns
(`NULL` is embedded as `none`). -/
structure User where
  id : Nat
  name : String
  email : String
  age : Option Nat
  bio : Option String
  created_at : String
deriving Repr, DecidableEq

/-- A row of the `appointments` table.  `user_email` is a free foreign key:
it may reference no `users` row. -/
structure Appointment where
  id : Nat
  user_email : String
  doctor : String
  date : String
  time : String
  booked_at : String
deriving Repr, DecidableEq

/-- A snapshot of the store: the contents of the two tables, in storage
order. -/
structure Store where
  users : List User
  appointments : List Appointment
deriving Repr, DecidableEq

/-- SQLite BINARY collation on TEXT values: lexicographic comparison of the
code-point sequences.  `textLe a b` is true iff `a` sorts no later than `b`. -/
def textLe : List Char → List Char → Bool
  | [], _ => true
  | _ :: _, [] => false
  | c :: cs, d :: ds =>
    if c.toNat < d.toNat then true
    else if d.toNat < c.toNat then false
    else textLe cs ds

/-- Relation `strLe a b`: string `a` sorts no later than string `b` under
the BINARY collation. -/
def strLe (a b : String) : Prop := textLe a.data b.data = true

instance : DecidableRel strLe := fun a b => inferInstanceAs (Decidable (_ = true))

/-- Embedding of the Python idiom `x or default` on a nullable integer
column: both `None` and `0` are falsy, so both render as the default. -/
def pyOrNat (v : Option Nat) (dflt : String) : String :=
  match v with
  | none => dflt
  | some n => if n = 0 then dflt else toString n

/-- Embedding of the Python idiom `x or default` on a nullable text column:
both `None` and the empty string are falsy, so both render as the default. -/
def pyOrStr (v : Option String) (dflt : String) : String :=
  match v with
  | none => dflt
  | some s => if s = "" then dflt else s

/-- The bio cell of `view_users`:
`(u["bio"][:30] + "...") if len(u["bio"] or "") > 30 else u["bio"] or "N/A"`. -/
def renderBio (bio : Option String) : String :=
  if (bio.getD "").length > 30 then (bio.getD "").take 30 ++ "..."
  else pyOrStr bio "N/A"

/-- One rendered row of the `view_users` table:
`[u["id"], u["name"], u["email"], u["age"] or "N/A", <bio cell>, u["created_at"]]`. -/
structure UserRow where
  id : Nat
  name : String
  email : String
  ageCell : String
  bioCell : String
  created_at : String
deriving Repr, DecidableEq

/-- Rendering of one `users` row in `view_users`. -/
def userRow (u : User) : UserRow :=
  { id := u.id, name := u.name, email := u.email,
    ageCell := pyOrNat u.age "N/A", bioCell := renderBio u.bio,
    created_at := u.created_at }

/-- What `view_users` prints: either a grid table with a trailing total
count, or the notice printed when the `users` table is empty. -/
inductive UsersView
  | table (rows : List UserRow) (total : Nat)
  | noUsers
deriving Repr, DecidableEq

/-- The `view_users` operation (`SELECT id, name, email, age, bio, created_at
FROM users`, then render, or print "No users found" when empty). -/
def view_users (db : Store) : UsersView :=
  if db.users.isEmpty then .noUsers
  else .table (db.users.map userRow) db.users.length

/-- One row of the `LEFT JOIN` in `view_appointments`: the appointment
together with `u.name AS user_name`, which is `NULL` on a join miss. -/
structure ApptJoin where
  appt : Appointment
  user_name : Option String
deriving Repr, DecidableEq

/-- The join rows contributed by one appointment in
`FROM appointments a LEFT JOIN users u ON a.user_email = u.email`: one row
per matching user, or a single row with a `NULL` name when no user matches. -/
def joinRowsFor (db : Store) (a : Appointment) : List ApptJoin :=
  let ms := db.users.filter (fun u => a.user_email == u.email)
  if ms.isEmpty then [{ appt := a, user_name := none }]
  else ms.map (fun u => { appt := a, user_name := some u.name })

/-- All rows of the `LEFT JOIN` in `view_appointments`, before ordering. -/
def leftJoinRows (db : Store) : List ApptJoin :=
  (db.appointments.map (joinRowsFor db)).flatten

/-- Lexicographic non-decreasing order on a (major, minor) pair of TEXT
values under the BINARY collation, as produced by a two-column `ORDER BY`. -/
def lexLe (p q : String × String) : Prop :=
  if p.1 == q.1 then strLe p.2 q.2 else strLe p.1 q.1

instance : DecidableRel lexLe := fun p q => by
  unfold lexLe; split <;> infer_instance

/-- Ordering `ORDER BY a.date, a.time` on the join rows of
`view_appointments`. -/
def dtLE (a b : ApptJoin) : Prop :=
  lexLe (a.appt.date, a.appt.time) (b.appt.date, b.appt.time)

instance : DecidableRel dtLE := fun a b =>
  inferInstanceAs (Decidable (lexLe _ _))

/-- The `view_appointments` result set: the `LEFT JOIN` rows ordered by
`a.date, a.time`. -/
def apptQueryRows (db : Store) : List ApptJoin :=
  List.insertionSort dtLE (leftJoinRows db)

/-- One rendered row of the `view_appointments` table:
`[a["id"], a["user_name"] or "Unknown", a["user_email"], a["doctor"],
a["date"], a["time"], a["booked_at"]]`. -/
structure ApptRow where
  id : Nat
  userCell : String
  email : String
  doctor : String
  date : String
  time : String
  booked_at : String
deriving Repr, DecidableEq

/-- Rendering of one join row in `view_appointments`. -/
def apptRow (j : ApptJoin) : ApptRow :=
  { id := j.appt.id, userCell := pyOrStr j.user_name "Unknown",
    email := j.appt.user_email, doctor := j.appt.doctor,
    date := j.appt.date, time := j.appt.time, booked_at := j.appt.booked_at }

/-- What `view_appointments` prints. -/
inductive ApptsView
  | table (rows : List ApptRow) (total : Nat)
  | noAppts
deriving Repr, DecidableEq

/-- The `view_appointments` operation. -/
def view_appointments (db : Store) : ApptsView :=
  let rows := (apptQueryRows db).map apptRow
  if rows.isEmpty then .noAppts
  else .table rows rows.length

/-- Count `COUNT(a.id)` for one user in the most-active-user query of `view_stats`
(`LEFT JOIN appointments a ON u.email = a.user_email GROUP BY u.email`):
the number of appointments whose `user_email` equals the email of this user. -/
def userApptCount (db : Store) (u : User) : Nat :=
  (db.appointments.filter (fun a => u.email == a.user_email)).length

/-- One grouped row of the most-active-user query:
`SELECT u.name, u.email, COUNT(a.id) AS appt_count`. -/
structure ActiveRow where
  name : String
  email : String
  cnt : Nat
deriving Repr, DecidableEq

/-- The grouped rows of the most-active-user query, one per user. -/
def activeRows (db : Store) : List ActiveRow :=
  db.users.map (fun u => { name := u.name, email := u.email, cnt := userApptCount db u })

/-- Selection `ORDER BY count DESC LIMIT 1`: an element of the list with maximal
key, or `none` for the empty list (ties go to the earlier row, matching a
stable descending sort; SQLite leaves the tie order unspecified). -/
def pickTopBy (key : α → Nat) : List α → Option α
  | [] => none
  | x :: xs =>
    match pickTopBy key xs with
    | none => some x
    | some y => if key x < key y then some y else some x

/-- The most-active-user metric before formatting: `some (name, count)` when
the query returns a row with a positive count, `none` when the program
prints "N/A" (`if most_active and most_active[2] > 0 else "N/A"`). -/
def mostActiveMetric (db : Store) : Option (String × Nat) :=
  match pickTopBy (fun r => r.cnt) (activeRows db) with
  | some r => if 0 < r.cnt then some (r.name, r.cnt) else none
  | none => none

/-- The rendered "Most Active User" cell of `view_stats`. -/
def mostActiveCell (db : Store) : String :=
  match mostActiveMetric db with
  | some (n, c) => n ++ " (" ++ toString c ++ " appointments)"
  | none => "N/A"

/-- The grouped rows of the most-booked-doctor query
(`SELECT doctor, COUNT(*) FROM appointments GROUP BY doctor`): one
(doctor, booking count) pair per distinct doctor value. -/
def doctorRows (db : Store) : List (String × Nat) :=
  ((db.appointments.map (fun a => a.doctor)).dedup).map
    (fun d => (d, (db.appointments.filter (fun a => a.doctor == d)).length))

/-- The rendered "Most Booked Doctor" cell of `view_stats`
(`if popular_doctor else "N/A"`: the row is present iff the
`appointments` table is nonempty). -/
def popularDoctorCell (db : Store) : String :=
  match pickTopBy (fun p => p.2) (doctorRows db) with
  | some p => p.1 ++ " (" ++ toString p.2 ++ " bookings)"
  | none => "N/A"

/-- What `view_stats` prints, as a record of the five metric values;
`today` is the current date string `datetime.now().strftime("%Y-%m-%d")`. -/
structure Stats where
  userCount : Nat
  apptCount : Nat
  todayCount : Nat
  mostActive : String
  popularDoctor : String
deriving Repr, DecidableEq

/-- The `view_stats` operation. -/
def view_stats (db : Store) (today : String) : Stats :=
  { userCount := db.users.length,
    apptCount := db.appointments.length,
    todayCount := (db.appointments.filter (fun a => a.date == today)).length,
    mostActive := mostActiveCell db,
    popularDoctor := popularDoctorCell db }

/-- The inner-join pairs of the recent-appointments query of
`view_recent_activity` (`FROM appointments a JOIN users u ON
a.user_email = u.email`): one (user, appointment) pair per match; an
appointment with no matching user contributes nothing. -/
def innerJoinPairs (db : Store) : List (User × Appointment) :=
  (db.appointments.map (fun a =>
    (db.users.filter (fun u => a.user_email == u.email)).map (fun u => (u, a)))).flatten

/-- Ordering `ORDER BY a.booked_at DESC` on join pairs. -/
def bookedDesc (p q : User × Appointment) : Prop :=
  strLe q.2.booked_at p.2.booked_at

instance : DecidableRel bookedDesc := fun p q =>
  inferInstanceAs (Decidable (strLe _ _))

/-- The appointment section of `view_recent_activity`: the five
most-recently-booked appointments that have a matching user. -/
def recent_appointments (db : Store) : List (User × Appointment) :=
  (List.insertionSort bookedDesc (innerJoinPairs db)).take 5

/-- The user-details block printed by `search_user` on a hit; missing
optional fields render as "Not set" (the `age or default` and
`bio or default` idioms). -/
structure UserDetail where
  id : Nat
  name : String
  email : String
  ageCell : String
  bioCell : String
  joined : String
deriving Repr, DecidableEq

/-- Rendering of the fields of the matched user in `search_user`. -/
def userDetail (u : User) : UserDetail :=
  { id := u.id, name := u.name, email := u.email,
    ageCell := pyOrNat u.age "Not set", bioCell := pyOrStr u.bio "Not set",
    joined := u.created_at }

/-- Ordering `ORDER BY date, time` on the appointments of the matched user. -/
def apptDT (a b : Appointment) : Prop :=
  lexLe (a.date, a.time) (b.date, b.time)

instance : DecidableRel apptDT := fun a b =>
  inferInstanceAs (Decidable (lexLe _ _))

/-- What `search_user` prints: the user block and their appointments on a
hit, or the not-found notice on a miss. -/
inductive SearchView
  | found (d : UserDetail) (appts : List Appointment)
  | notFound (msg : String)
deriving Repr, DecidableEq

/-- The `search_user` operation: exact-match lookup
(`SELECT * FROM users WHERE email = ?`, `fetchone`), then the appointments
of that user (`WHERE user_email = ? ORDER BY date, time`), or
`print(f"User not found: {email}")` on a miss. -/
def search_user (db : Store) (email : String) : SearchView :=
  match db.users.find? (fun u => u.email == email) with
  | some u =>
    .found (userDetail u)
      (List.insertionSort apptDT (db.appointments.filter (fun a => a.user_email == email)))
  | none => .notFound ("❌ User not found: " ++ email)

/-- The observable outcome of `main`: either the interactive menu is entered,
or the database-not-found message is printed and the program returns. -/
inductive MainOutcome
  | menuEntered
  | dbNotFound (msg : String)
deriving Repr, DecidableEq

/-- Behaviour of `sqlite3.connect(DATABASE)` on the store path.  When the
file exists the connection opens on its contents.  When the file is absent,
SQLite does not fail: it creates a fresh empty database file, provided the
directory allows creating it; `sqlite3.OperationalError` ("unable to open
database file") is raised only when the file can neither be opened nor
created. -/
def sqliteConnect (fileExists dirWritable : Bool) (stored : Store) : Except String Store :=
  if fileExists then .ok stored
  else if dirWritable then .ok { users := [], appointments := [] }
  else .error "unable to open database file"

/-- The `main` function: `sqlite3.connect(DATABASE); conn.close()` as an
existence check, then the interactive menu; `sqlite3.OperationalError` is
caught and reported as "Database not found" without entering the menu. -/
def main (fileExists dirWritable : Bool) (stored : Store) : MainOutcome :=
  match sqliteConnect fileExists dirWritable stored with
  | .ok _ => .menuEntered
  | .error _ => .dbNotFound "Error: Database not found! Make sure the Flask app has been run at least once."

/-- An appointment matches some user row iff a user has its `user_email`. -/
def matchesSomeUser (db : Store) (a : Appointment) : Bool :=
  db.users.any (fun u => u.email == a.user_email)

/-- The number of orphan appointments: appointments whose `user_email`
matches no user row. -/
def orphanCount (db : Store) : Nat :=
  (db.appointments.filter (fun a => ! matchesSomeUser db a)).length

/-- The sum over all users of the per-user appointment counts computed by
the most-active-user query of `view_stats`. -/
def sumUserCounts (db : Store) : Nat :=
  (db.users.map (fun u => userApptCount db u)).sum

/-! ### Concrete example stores used as counterexamples and witnesses -/

/-- The empty store: both tables empty. -/
def emptyStore : Store := { users := [], appointments := [] }

/-- A user with all optional fields present. -/
def alice : User :=
  { id := 1, name := "Alice", email := "a@x.com", age := some 30,
    bio := some "hi", created_at := "2026-01-01 10:00:00" }

/-- A user whose optional `age` and `bio` columns are NULL. -/
def bob : User :=
  { id := 2, name := "Bob", email := "b@x.com", age := none, bio := none,
    created_at := "2026-01-02 10:00:00" }

/-- A user whose stored age is `0` and whose stored bio is the empty
string: both fields present but falsy in Python. -/
def zed : User :=
  { id := 3, name := "Zed", email := "z@x.com", age := some 0,
    bio := some "", created_at := "2026-01-03 10:00:00" }

/-- A user whose stored bio is 31 characters long. -/
def carol : User :=
  { id := 4, name := "Carol", email := "c@x.com", age := some 25,
    bio := some "0123456789012345678901234567890",
    created_at := "2026-01-04 10:00:00" }

/-- An appointment belonging to `alice`. -/
def apptA : Appointment :=
  { id := 1, user_email := "a@x.com", doctor := "Dr. Smith",
    date := "2026-02-01", time := "09:00", booked_at := "2026-01-05 09:00:00" }

/-- An appointment belonging to `bob`. -/
def apptB : Appointment :=
  { id := 2, user_email := "b@x.com", doctor := "Dr. Jones",
    date := "2026-02-02", time := "10:00", booked_at := "2026-01-06 09:00:00" }

/-- An orphan appointment: its `user_email` matches no user row. -/
def apptOrphan : Appointment :=
  { id := 3, user_email := "ghost@x.com", doctor := "Dr. Who",
    date := "2026-02-03", time := "11:00", booked_at := "2026-01-07 09:00:00" }

/-- A store in which `alice` and `bob` each have exactly one appointment:
the top appointment count is tied. -/
def tieDb : Store := { users := [alice, bob], appointments := [apptA, apptB] }

/-- A store holding one user with NULL optional fields and no appointments. -/
def bobDb : Store := { users := [bob], appointments := [] }

/-- A store holding one user and one orphan appointment referencing a
different, nonexistent email. -/
def orphanDb : Store := { users := [alice], appointments := [apptOrphan] }

/-! ### Order-theoretic facts about the BINARY collation -/

theorem textLe_refl : ∀ l : List Char, textLe l l = true
  | [] => rfl
  | c :: cs => by simp [textLe, textLe_refl cs]

theorem textLe_total : ∀ a b : List Char, textLe a b = true ∨ textLe b a = true
  | [], _ => Or.inl rfl
  | _ :: _, [] => Or.inr rfl
  | c :: cs, d :: ds => by
    simp only [textLe]
    rcases Nat.lt_trichotomy c.toNat d.toNat with h | h | h
    · left; simp [h]
    · have h1 : ¬ c.toNat < d.toNat := by omega
      have h2 : ¬ d.toNat < c.toNat := by omega
      simpa [h1, h2] using textLe_total cs ds
    · right; simp [h]

theorem textLe_trans : ∀ {a b c : List Char},
    textLe a b = true → textLe b c = true → textLe a c = true
  | [], _, _, _, _ => rfl
  | _ :: _, [], _, h1, _ => by simp [textLe] at h1
  | _ :: _, _ :: _, [], _, h2 => by simp [textLe] at h2
  | x :: xs, y :: ys, z :: zs, h1, h2 => by
    simp only [textLe] at h1 h2 ⊢
    have hxy : x.toNat ≤ y.toNat := by
      by_contra hc
      have hlt : y.toNat < x.toNat := by omega
      simp [hlt, Nat.lt_asymm hlt] at h1
    have hyz : y.toNat ≤ z.toNat := by
      by_contra hc
      have hlt : z.toNat < y.toNat := by omega
      simp [hlt, Nat.lt_asymm hlt] at h2
    rcases Nat.lt_or_ge x.toNat z.toNat with hxz | hxz
    · simp [hxz]
    · have e1 : x.toNat = y.toNat := by omega
      have e2 : y.toNat = z.toNat := by omega
      have r1 : textLe xs ys = true := by simpa [e1] using h1
      have r2 : textLe ys zs = true := by simpa [e2] using h2
      have e3 : x.toNat = z.toNat := by omega
      simpa [e3] using textLe_trans r1 r2

theorem textLe_antisymm : ∀ {a b : List Char},
    textLe a b = true → textLe b a = true → a = b
  | [], [], _, _ => rfl
  | [], _ :: _, _, h2 => by simp [textLe] at h2
  | _ :: _, [], h1, _ => by simp [textLe] at h1
  | x :: xs, y :: ys, h1, h2 => by
    simp only [textLe] at h1 h2
    have hxy : x.toNat ≤ y.toNat := by
      by_contra hc
      have hlt : y.toNat < x.toNat := by omega
      simp [hlt, Nat.lt_asymm hlt] at h1
    have hyx : y.toNat ≤ x.toNat := by
      by_contra hc
      have hlt : x.toNat < y.toNat := by omega
      simp [hlt, Nat.lt_asymm hlt] at h2
    have he : x.toNat = y.toNat := Nat.le_antisymm hxy hyx
    have hx : x = y := Char.ext (UInt32.ext he)
    have r1 : textLe xs ys = true := by simpa [he] using h1
    have r2 : textLe ys xs = true := by simpa [he] using h2
    rw [hx, textLe_antisymm r1 r2]

theorem strLe_refl (s : String) : strLe s s :=
  textLe_refl s.data

theorem strLe_total (a b : String) : strLe a b ∨ strLe b a :=
  textLe_total a.data b.data

theorem strLe_trans {a b c : String} (h1 : strLe a b) (h2 : strLe b c) : strLe a c :=
  textLe_trans h1 h2

theorem strLe_antisymm {a b : String} (h1 : strLe a b) (h2 : strLe b a) : a = b :=
  String.ext (textLe_antisymm h1 h2)

theorem lexLe_total (p q : String × String) : lexLe p q ∨ lexLe q p := by
  unfold lexLe
  by_cases h : p.1 = q.1
  · simpa [h] using strLe_total p.2 q.2
  · have h2 : ¬ q.1 = p.1 := fun hh => h hh.symm
    simpa [h, h2] using strLe_total p.1 q.1

theorem lexLe_trans {p q r : String × String}
    (h1 : lexLe p q) (h2 : lexLe q r) : lexLe p r := by
  unfold lexLe at h1 h2 ⊢
  by_cases hpq : p.1 = q.1 <;> by_cases hqr : q.1 = r.1
  · have hpr : p.1 = r.1 := hpq.trans hqr
    simp only [hpq, hqr, hpr, beq_self_eq_true, if_true] at h1 h2 ⊢
    exact strLe_trans h1 h2
  · have hpr : ¬ p.1 = r.1 := by rw [hpq]; exact hqr
    simp only [hpq, beq_self_eq_true, if_true,
      beq_eq_false_iff_ne, ne_eq, hqr, hpr, if_neg, if_false,
      beq_iff_eq] at h1 h2 ⊢
    exact h2
  · have hpr : ¬ p.1 = r.1 := by rw [← hqr]; exact hpq
    simp only [hqr, beq_self_eq_true, if_true,
      beq_iff_eq, hpq, if_false, hpr] at h1 h2 ⊢
    exact h1
  · by_cases hpr : p.1 = r.1
    · exfalso
      simp only [beq_iff_eq, hpq, hqr, if_false] at h1 h2
      rw [← hpr] at h2
      exact hpq (strLe_antisymm h1 h2)
    · simp only [beq_iff_eq, hpq, hqr, hpr, if_false] at h1 h2 ⊢
      exact strLe_trans h1 h2

theorem dtLE_total (a b : ApptJoin) : dtLE a b ∨ dtLE b a :=
  lexLe_total _ _

theorem dtLE_trans {a b c : ApptJoin} (h1 : dtLE a b) (h2 : dtLE b c) : dtLE a c :=
  lexLe_trans h1 h2

theorem apptDT_total (a b : Appointment) : apptDT a b ∨ apptDT b a :=
  lexLe_total _ _

theorem apptDT_trans {a b c : Appointment} (h1 : apptDT a b) (h2 : apptDT b c) :
    apptDT a c :=
  lexLe_trans h1 h2

theorem bookedDesc_total (p q : User × Appointment) : bookedDesc p q ∨ bookedDesc q p :=
  (strLe_total q.2.booked_at p.2.booked_at).imp id id

theorem bookedDesc_trans {p q r : User × Appointment}
    (h1 : bookedDesc p q) (h2 : bookedDesc q r) : bookedDesc p r :=
  strLe_trans h2 h1

/-! ### Facts about `pickTopBy` (`ORDER BY count DESC LIMIT 1`) -/

theorem pickTopBy_eq_none {key : α → Nat} :
    ∀ {l : List α}, pickTopBy key l = none ↔ l = []
  | [] => by simp [pickTopBy]
  | x :: xs => by
    cases hx : pickTopBy key xs with
    | none => simp [pickTopBy, hx]
    | some y => by_cases hk : key x < key y <;> simp [pickTopBy, hx, hk]

theorem pickTopBy_mem {key : α → Nat} :
    ∀ {l : List α} {r : α}, pickTopBy key l = some r → r ∈ l
  | [], r, h => by simp [pickTopBy] at h
  | x :: xs, r, h => by
    cases hx : pickTopBy key xs with
    | none =>
      simp [pickTopBy, hx] at h
      simp [← h]
    | some y =>
      by_cases hk : key x < key y
      · simp [pickTopBy, hx, hk] at h
        exact h ▸ List.mem_cons_of_mem x (pickTopBy_mem hx)
      · simp [pickTopBy, hx, hk] at h
        simp [← h]

theorem pickTopBy_le {key : α → Nat} :
    ∀ {l : List α} {r : α}, pickTopBy key l = some r → ∀ x ∈ l, key x ≤ key r
  | [], r, h => by simp [pickTopBy] at h
  | x :: xs, r, h => by
    cases hx : pickTopBy key xs with
    | none =>
      have hxs : xs = [] := pickTopBy_eq_none.mp hx
      subst hxs
      simp [pickTopBy] at h
      intro z hz
      simp at hz
      simp [hz, ← h]
    | some y =>
      have ihy := pickTopBy_le (l := xs) hx
      by_cases hk : key x < key y
      · simp [pickTopBy, hx, hk] at h
        intro z hz
        rcases List.mem_cons.mp hz with hz | hz
        · rw [hz, ← h]; omega
        · rw [← h]; exact ihy z hz
      · simp [pickTopBy, hx, hk] at h
        intro z hz
        rcases List.mem_cons.mp hz with hz | hz
        · rw [hz, ← h]
        · rw [← h]
          have := ihy z hz
          omega

/-! ### Claim theorems -/

/-- C1: the claim asserts that when the store file is absent the program
prints the database-not-found message and exits before the menu.  The code
does not do this: `sqlite3.connect` silently creates a fresh empty database
file when the path is absent but creatable, so `main` enters the interactive
menu.  This theorem evaluates the embedded `main` at that failing input. -/
theorem main_absent_store_enters_menu :
    main false true emptyStore = MainOutcome.menuEntered := rfl

/-- C6: on the empty store, List Users prints the no-users notice and no
table, and Statistics reports zero users, zero appointments, zero
appointments today, and "N/A" for both the most-active-user and
most-booked-doctor metrics. -/
theorem empty_store_views (today : String) :
    view_users emptyStore = UsersView.noUsers ∧
    view_stats emptyStore today =
      { userCount := 0, apptCount := 0, todayCount := 0,
        mostActive := "N/A", popularDoctor := "N/A" } :=
  ⟨rfl, rfl⟩

/-- C10: in List Users, a stored age equal to `0` and a stored bio equal to
the empty string render as "N/A", exactly as when the fields are NULL, so an
"N/A" cell does not imply the stored field is missing. -/
theorem zero_age_empty_bio_render_na (u v : User)
    (hu0 : u.age = some 0) (hub : u.bio = some "")
    (hv0 : v.age = none) (hvb : v.bio = none) :
    (userRow u).ageCell = "N/A" ∧ (userRow u).bioCell = "N/A" ∧
    (userRow u).ageCell = (userRow v).ageCell ∧
    (userRow u).bioCell = (userRow v).bioCell := by
  simp [userRow, pyOrNat, pyOrStr, renderBio, hu0, hub, hv0, hvb]

/-- C10, witness: the rendering coincidence at the concrete users `zed`
(age 0, empty bio) and `bob` (NULL age, NULL bio). -/
theorem zero_age_empty_bio_render_na_witness :
    (userRow zed).ageCell = "N/A" ∧ (userRow zed).bioCell = "N/A" ∧
    (userRow zed).ageCell = (userRow bob).ageCell ∧
    (userRow zed).bioCell = (userRow bob).bioCell :=
  zero_age_empty_bio_render_na zed bob rfl rfl rfl rfl

/-- The formatted most-active-user cell can never collide with the literal
"N/A": the two strings have different lengths. -/
theorem mostActiveFormat_ne_na (n : String) (c : Nat) :
    n ++ " (" ++ toString c ++ " appointments)" ≠ "N/A" := by
  intro h
  have hlen := congrArg String.length h
  rw [String.length_append, String.length_append, String.length_append] at hlen
  have h1 : (" (" : String).length = 2 := rfl
  have h2 : (" appointments)" : String).length = 14 := rfl
  have h3 : ("N/A" : String).length = 3 := rfl
  omega

/-- The most-active-user metric is `none` exactly when the appointment
count of every user is zero (in particular when there are no users). -/
theorem mostActiveMetric_eq_none (db : Store) :
    mostActiveMetric db = none ↔ ∀ u ∈ db.users, userApptCount db u = 0 := by
  unfold mostActiveMetric
  cases hp : pickTopBy (fun r => r.cnt) (activeRows db) with
  | none =>
    have h0 : activeRows db = [] := pickTopBy_eq_none.mp hp
    have hu : db.users = [] := by
      have hl := congrArg List.length h0
      simp only [activeRows, List.length_map, List.length_nil] at hl
      exact List.eq_nil_of_length_eq_zero hl
    simp [hu]
  | some r =>
    constructor
    · intro h u hu
      have hr : ¬ 0 < r.cnt := by
        by_contra hc
        simp [hc] at h
      have hmem : ({ name := u.name, email := u.email, cnt := userApptCount db u } : ActiveRow)
          ∈ activeRows db := by
        simp only [activeRows, List.mem_map]
        exact ⟨u, hu, rfl⟩
      have hle := pickTopBy_le hp _ hmem
      simp only [] at hle
      omega
    · intro h
      have hrmem := pickTopBy_mem hp
      simp only [activeRows, List.mem_map] at hrmem
      obtain ⟨u, hu, hru⟩ := hrmem
      have hc : r.cnt = userApptCount db u := by rw [← hru]
      rw [h u hu] at hc
      simp [hc]

/-- C2 (amended): the Most Active User metric reports "N/A" exactly when
every user has zero appointments; otherwise the reported user is a user of
the store whose appointment count is maximal: greater than or equal to
the count of every user, with ties broken arbitrarily (not necessarily strictly
greater, as the original claim asserts). -/
theorem stats_most_active (db : Store) (today : String) :
    ((view_stats db today).mostActive = "N/A" ↔ ∀ u ∈ db.users, userApptCount db u = 0) ∧
    (∀ n c, mostActiveMetric db = some (n, c) →
      0 < c ∧ (∃ u ∈ db.users, u.name = n ∧ userApptCount db u = c) ∧
      ∀ u ∈ db.users, userApptCount db u ≤ c) := by
  constructor
  · have hcell : (view_stats db today).mostActive = mostActiveCell db := rfl
    rw [hcell, ← mostActiveMetric_eq_none]
    unfold mostActiveCell
    cases hm : mostActiveMetric db with
    | none => simp
    | some p => simpa using mostActiveFormat_ne_na p.1 p.2
  · intro n c hm
    unfold mostActiveMetric at hm
    cases hp : pickTopBy (fun r => r.cnt) (activeRows db) with
    | none => rw [hp] at hm; cases hm
    | some r =>
      rw [hp] at hm
      dsimp only at hm
      by_cases hc : 0 < r.cnt
      · rw [if_pos hc] at hm
        have hn : r.name = n := congrArg Prod.fst (Option.some.inj hm)
        have hcnt : r.cnt = c := congrArg Prod.snd (Option.some.inj hm)
        have hrmem := pickTopBy_mem hp
        simp only [activeRows, List.mem_map] at hrmem
        obtain ⟨u, hu, hru⟩ := hrmem
        refine ⟨hcnt ▸ hc, ⟨u, hu, ?_, ?_⟩, ?_⟩
        · rw [← hn, ← hru]
        · rw [← hcnt, ← hru]
        · intro v hv
          have hmem : ({ name := v.name, email := v.email, cnt := userApptCount db v } : ActiveRow)
              ∈ activeRows db := by
            simp only [activeRows, List.mem_map]
            exact ⟨v, hv, rfl⟩
          have hle := pickTopBy_le hp _ hmem
          simp only [] at hle
          omega
      · rw [if_neg hc] at hm
        cases hm

/-- C2, witness: the amended statement evaluated on `tieDb`, whose
most-active metric is Alice with the (tied) maximal count 1. -/
theorem stats_most_active_witness :
    0 < 1 ∧ (∃ u ∈ tieDb.users, u.name = "Alice" ∧ userApptCount tieDb u = 1) ∧
    ∀ u ∈ tieDb.users, userApptCount tieDb u ≤ 1 :=
  (stats_most_active tieDb "2026-02-01").2 "Alice" 1 (by decide)

/-- C2, counterexample: in `tieDb` both users have exactly one appointment.
The metric reports Alice with count 1, yet Bob is a different user whose
count is also 1, so the reported count is not strictly greater than every
count of every other user, refuting the claim as stated. -/
theorem stats_most_active_tie_counterexample :
    mostActiveMetric tieDb = some ("Alice", 1) ∧
    bob ∈ tieDb.users ∧ bob.name ≠ "Alice" ∧
    userApptCount tieDb bob = 1 ∧ ¬ (1 > userApptCount tieDb bob) := by
  refine ⟨?_, ?_, ?_, ?_, ?_⟩ <;> decide

/-- C4: in List Users, a bio longer than 30 characters renders as its first
30 characters followed by "...", and a non-empty bio of at most 30
characters renders unmodified. -/
theorem users_bio_truncation (u : User) (b : String) (hb : u.bio = some b) :
    (b.length > 30 → (userRow u).bioCell = b.take 30 ++ "...") ∧
    (b.length ≤ 30 → b ≠ "" → (userRow u).bioCell = b) := by
  constructor
  · intro hlen
    simp [userRow, renderBio, hb, hlen]
  · intro hlen hne
    have hgt : ¬ (b.length > 30) := by omega
    simp [userRow, renderBio, hb, hgt, pyOrStr, hne]

/-- C4, witness: the 31-character bio of `carol` renders truncated to its first
30 characters plus the ellipsis. -/
theorem users_bio_truncation_witness :
    (userRow carol).bioCell = ("0123456789012345678901234567890" : String).take 30 ++ "..." :=
  (users_bio_truncation carol "0123456789012345678901234567890" rfl).1 (by decide)

/-- C7: in List Users a user with NULL age renders the age cell as "N/A",
and in the Search User detail view the missing optional fields (age, bio)
of the matched user render as "Not set". -/
theorem missing_optional_fields (db : Store) (u : User) (q : String) :
    (u.age = none → (userRow u).ageCell = "N/A") ∧
    (∀ d l, search_user db q = SearchView.found d l →
      ∃ v, db.users.find? (fun w => w.email == q) = some v ∧ d = userDetail v ∧
        (v.age = none → d.ageCell = "Not set") ∧
        (v.bio = none → d.bioCell = "Not set")) := by
  constructor
  · intro h
    simp [userRow, pyOrNat, h]
  · intro d l hs
    unfold search_user at hs
    cases hf : db.users.find? (fun w => w.email == q) with
    | none => rw [hf] at hs; cases hs
    | some v =>
      rw [hf] at hs
      cases hs
      exact ⟨v, rfl, rfl, fun h => by simp [userDetail, pyOrNat, h],
             fun h => by simp [userDetail, pyOrStr, h]⟩

/-- C7, witness: `bob` (NULL age, NULL bio) in the one-user store `bobDb`:
the listing age cell is "N/A", and the detail view renders both optional
fields as "Not set". -/
theorem missing_optional_fields_witness :
    (userRow bob).ageCell = "N/A" ∧
    ∃ v, bobDb.users.find? (fun w => w.email == "b@x.com") = some v ∧
      userDetail bob = userDetail v ∧
      (v.age = none → (userDetail bob).ageCell = "Not set") ∧
      (v.bio = none → (userDetail bob).bioCell = "Not set") :=
  ⟨(missing_optional_fields bobDb bob "b@x.com").1 rfl,
   (missing_optional_fields bobDb bob "b@x.com").2 (userDetail bob) [] rfl⟩

/-- C8: searching an email that matches no user prints the not-found notice
carrying that exact email string, and matching is exact: the search reports
a hit iff the email of some user equals the queried string. -/
theorem search_user_exact_match (db : Store) (q : String) :
    ((∀ u ∈ db.users, u.email ≠ q) →
      search_user db q = SearchView.notFound ("❌ User not found: " ++ q)) ∧
    ((∃ d l, search_user db q = SearchView.found d l) ↔ ∃ u ∈ db.users, u.email = q) := by
  constructor
  · intro h
    unfold search_user
    have hf : db.users.find? (fun u => u.email == q) = none := by
      rw [List.find?_eq_none]
      intro u hu
      simp [h u hu]
    rw [hf]
  · constructor
    · rintro ⟨d, l, hs⟩
      unfold search_user at hs
      cases hf : db.users.find? (fun u => u.email == q) with
      | none => rw [hf] at hs; cases hs
      | some v =>
        have hv := List.find?_some hf
        have hvm := List.mem_of_find?_eq_some hf
        exact ⟨v, hvm, by simpa using hv⟩
    · rintro ⟨u, hu, he⟩
      unfold search_user
      cases hf : db.users.find? (fun v => v.email == q) with
      | none =>
        rw [List.find?_eq_none] at hf
        exact absurd (by simpa using he) (by simpa using hf u hu)
      | some v =>
        exact ⟨userDetail v, _, rfl⟩

/-- C5: the rows produced by List Appointments are sorted non-decreasing by
the (date, time) pair compared lexicographically: both the ordered query
result and the rendered rows are pairwise non-decreasing. -/
theorem appointments_sorted_by_date_time (db : Store) :
    List.Sorted dtLE (apptQueryRows db) ∧
    ((apptQueryRows db).map apptRow).Pairwise
      (fun r s => strLe r.date s.date ∧ (r.date = s.date → strLe r.time s.time)) := by
  have hs : List.Sorted dtLE (apptQueryRows db) :=
    @List.sorted_insertionSort ApptJoin dtLE _ ⟨dtLE_total⟩
      ⟨fun _ _ _ h1 h2 => dtLE_trans h1 h2⟩ (leftJoinRows db)
  refine ⟨hs, List.Pairwise.map apptRow ?_ hs⟩
  intro a b hab
  unfold dtLE lexLe at hab
  by_cases hd : a.appt.date = b.appt.date
  · simp only [hd, beq_self_eq_true, if_true] at hab
    constructor
    · show strLe a.appt.date b.appt.date
      rw [hd]
      exact strLe_refl _
    · intro _
      exact hab
  · simp only [beq_iff_eq, hd, if_false] at hab
    exact ⟨hab, fun hh => absurd hh hd⟩

/-- Every join row contributed by an appointment carries that appointment. -/
theorem joinRowsFor_appt (db : Store) (a : Appointment) :
    ∀ j ∈ joinRowsFor db a, j.appt = a := by
  intro j hj
  simp only [joinRowsFor] at hj
  cases hms : db.users.filter (fun u => a.user_email == u.email) with
  | nil =>
    rw [hms] at hj
    simp at hj
    rw [hj]
  | cons v vs =>
    rw [hms] at hj
    simp only [List.isEmpty_cons, Bool.false_eq_true, if_false, List.mem_map] at hj
    obtain ⟨u, hu, hju⟩ := hj
    rw [← hju]

/-- C3: an appointment whose `user_email` matches no user row does appear in
the List Appointments result, renders its user cell as "Unknown" there, and
is entirely absent from the Recent Activity appointment section. -/
theorem orphan_rendering_and_exclusion (db : Store) (a : Appointment)
    (ha : a ∈ db.appointments) (h : ∀ u ∈ db.users, u.email ≠ a.user_email) :
    (∃ j ∈ apptQueryRows db, j.appt = a) ∧
    (∀ j ∈ apptQueryRows db, j.appt = a → (apptRow j).userCell = "Unknown") ∧
    (∀ p ∈ recent_appointments db, p.2 ≠ a) := by
  have hfil : db.users.filter (fun u => a.user_email == u.email) = [] := by
    rw [List.filter_eq_nil_iff]
    intro u hu
    simp only [beq_iff_eq]
    exact fun he => (h u hu) he.symm
  have hrows : joinRowsFor db a = [{ appt := a, user_name := none }] := by
    simp [joinRowsFor, hfil]
  have hperm := List.perm_insertionSort dtLE (leftJoinRows db)
  have hmem_left : ({ appt := a, user_name := none } : ApptJoin) ∈ leftJoinRows db := by
    unfold leftJoinRows
    rw [List.mem_flatten]
    exact ⟨joinRowsFor db a, List.mem_map_of_mem _ ha,
      by rw [hrows]; exact List.mem_singleton_self _⟩
  refine ⟨⟨_, hperm.mem_iff.mpr hmem_left, rfl⟩, ?_, ?_⟩
  · intro j hj hja
    have hjl : j ∈ leftJoinRows db := hperm.mem_iff.mp hj
    unfold leftJoinRows at hjl
    rw [List.mem_flatten] at hjl
    obtain ⟨l, hl, hjl2⟩ := hjl
    rw [List.mem_map] at hl
    obtain ⟨a0, ha0, hla⟩ := hl
    have hj0 : j.appt = a0 := joinRowsFor_appt db a0 j (hla ▸ hjl2)
    have ha0a : a0 = a := by rw [← hj0, hja]
    subst ha0a
    have hj1 : j ∈ joinRowsFor db a0 := hla ▸ hjl2
    rw [hrows, List.mem_singleton] at hj1
    rw [hj1]
    rfl
  · intro p hp hpa
    have hp1 : p ∈ List.insertionSort bookedDesc (innerJoinPairs db) :=
      List.take_subset 5 _ hp
    have hp2 : p ∈ innerJoinPairs db :=
      (List.perm_insertionSort bookedDesc (innerJoinPairs db)).mem_iff.mp hp1
    unfold innerJoinPairs at hp2
    rw [List.mem_flatten] at hp2
    obtain ⟨l, hl, hpl⟩ := hp2
    rw [List.mem_map] at hl
    obtain ⟨a0, ha0, hla⟩ := hl
    rw [← hla, List.mem_map] at hpl
    obtain ⟨u, hu, hup⟩ := hpl
    have humem := List.mem_filter.mp hu
    have hu2 : u ∈ db.users := humem.1
    have hue : a0.user_email = u.email := by
      have hb := humem.2
      rwa [beq_iff_eq] at hb
    have hpa0 : p.2 = a0 := by rw [← hup]
    rw [hpa] at hpa0
    apply h u hu2
    rw [← hpa0] at hue
    exact hue.symm

/-- C3, witness: in `orphanDb` the orphan appointment appears in the
listing with user cell "Unknown" and is excluded from Recent Activity. -/
theorem orphan_rendering_and_exclusion_witness :
    (∃ j ∈ apptQueryRows orphanDb, j.appt = apptOrphan) ∧
    (∀ j ∈ apptQueryRows orphanDb, j.appt = apptOrphan → (apptRow j).userCell = "Unknown") ∧
    (∀ p ∈ recent_appointments orphanDb, p.2 ≠ apptOrphan) :=
  orphan_rendering_and_exclusion orphanDb apptOrphan (by decide) (by decide)

/-- Filtering by a disjunction of two pointwise-exclusive predicates counts
each side once. -/
theorem length_filter_or (p q : α → Bool) (l : List α)
    (h : ∀ x ∈ l, ¬(p x = true ∧ q x = true)) :
    (l.filter (fun x => p x || q x)).length
      = (l.filter p).length + (l.filter q).length := by
  induction l with
  | nil => rfl
  | cons x xs ih =>
    have hx := h x (List.mem_cons_self x xs)
    have hxs : ∀ y ∈ xs, ¬(p y = true ∧ q y = true) :=
      fun y hy => h y (List.mem_cons_of_mem x hy)
    cases hp : p x with
    | true =>
      have hq : q x = false := by
        cases hq : q x with
        | true => exact absurd ⟨hp, hq⟩ hx
        | false => rfl
      simp [List.filter_cons, hp, hq, ih hxs]
      omega
    | false =>
      cases hq : q x with
      | true =>
        simp [List.filter_cons, hp, hq, ih hxs]
        omega
      | false =>
        simp [List.filter_cons, hp, hq, ih hxs]

/-- A filter and its complement partition the list. -/
theorem length_filter_add_not (p : α → Bool) (l : List α) :
    (l.filter p).length + (l.filter (fun x => ! p x)).length = l.length := by
  induction l with
  | nil => rfl
  | cons x xs ih =>
    cases hp : p x <;> simp [List.filter_cons, hp] <;> omega

/-- With pairwise-distinct user emails, the per-user appointment counts sum
to the number of appointments that match some user. -/
theorem sum_counts_eq_matched (appts : List Appointment) :
    ∀ users : List User, (users.map (fun u => u.email)).Nodup →
      (users.map (fun u => (appts.filter (fun a => u.email == a.user_email)).length)).sum
        = (appts.filter (fun a => users.any (fun u => u.email == a.user_email))).length := by
  intro users
  induction users with
  | nil => simp
  | cons u us ih =>
    intro h
    rw [List.map_cons, List.nodup_cons] at h
    obtain ⟨h1, h2⟩ := h
    have hdisj : ∀ a ∈ appts,
        ¬((u.email == a.user_email) = true ∧
          (us.any (fun v => v.email == a.user_email)) = true) := by
      rintro a ha ⟨hu, hv⟩
      rw [beq_iff_eq] at hu
      rw [List.any_eq_true] at hv
      obtain ⟨v, hv1, hv2⟩ := hv
      rw [beq_iff_eq] at hv2
      apply h1
      rw [List.mem_map]
      exact ⟨v, hv1, by rw [hv2, ← hu]⟩
    rw [List.map_cons, List.sum_cons, ih h2]
    have hsplit := length_filter_or (fun a => u.email == a.user_email)
      (fun a => us.any (fun v => v.email == a.user_email)) appts hdisj
    have hfun : (fun a : Appointment => (u :: us).any (fun v => v.email == a.user_email))
        = (fun a : Appointment =>
            (u.email == a.user_email) || us.any (fun v => v.email == a.user_email)) := by
      funext a
      rw [List.any_cons]
    rw [hfun, hsplit]

/-- C9: in the Statistics operation the appointment count of a user counts
only appointments whose `user_email` equals the email of that user.  Adding an orphan
appointment (one referencing no user) leaves every per-user count and their
sum unchanged while incrementing the total appointment count, and also the
today count when its date is today; consequently the sum of per-user counts
falls strictly below the reported total. -/
theorem stats_orphan_counting (db : Store) (a : Appointment) (today : String)
    (hnd : (db.users.map (fun u => u.email)).Nodup)
    (h : ∀ u ∈ db.users, u.email ≠ a.user_email) :
    (∀ u ∈ db.users, userApptCount db u
      = (db.appointments.filter (fun x => u.email == x.user_email)).length) ∧
    (∀ u ∈ db.users,
      userApptCount { users := db.users, appointments := a :: db.appointments } u
        = userApptCount db u) ∧
    (view_stats { users := db.users, appointments := a :: db.appointments } today).apptCount
      = (view_stats db today).apptCount + 1 ∧
    (a.date = today →
      (view_stats { users := db.users, appointments := a :: db.appointments } today).todayCount
        = (view_stats db today).todayCount + 1) ∧
    sumUserCounts { users := db.users, appointments := a :: db.appointments }
      < (view_stats { users := db.users, appointments := a :: db.appointments } today).apptCount := by
  have hcnt : ∀ u ∈ db.users,
      userApptCount { users := db.users, appointments := a :: db.appointments } u
        = userApptCount db u := by
    intro u hu
    have hne : (u.email == a.user_email) = false := by
      rw [beq_eq_false_iff_ne]
      exact h u hu
    simp [userApptCount, List.filter_cons, hne]
  refine ⟨fun u _ => rfl, hcnt, rfl, ?_, ?_⟩
  · intro hd
    have hbe : (a.date == today) = true := by rw [beq_iff_eq]; exact hd
    simp [view_stats, List.filter_cons, hbe]
  · have hmapeq :
        (db.users.map (fun u =>
          userApptCount { users := db.users, appointments := a :: db.appointments } u))
          = db.users.map (fun u => userApptCount db u) :=
      List.map_congr_left hcnt
    have hsum2 : sumUserCounts { users := db.users, appointments := a :: db.appointments }
        = sumUserCounts db := by
      unfold sumUserCounts
      rw [hmapeq]
    have hle : sumUserCounts db ≤ db.appointments.length := by
      have heq := sum_counts_eq_matched db.appointments db.users hnd
      have : sumUserCounts db
          = (db.appointments.filter
              (fun x => db.users.any (fun u => u.email == x.user_email))).length := by
        unfold sumUserCounts userApptCount
        exact heq
      rw [this]
      exact List.length_filter_le _ _
    have hlen : (view_stats { users := db.users, appointments := a :: db.appointments } today).apptCount
        = db.appointments.length + 1 := rfl
    rw [hsum2, hlen]
    omega

/-- C9, witness: adding the orphan appointment to `tieDb` leaves the counts
of both users at 1 and their sum at 2, while the total appointment count becomes 3. -/
theorem stats_orphan_counting_witness :
    (∀ u ∈ tieDb.users, userApptCount tieDb u
      = (tieDb.appointments.filter (fun x => u.email == x.user_email)).length) ∧
    (∀ u ∈ tieDb.users,
      userApptCount { users := tieDb.users, appointments := apptOrphan :: tieDb.appointments } u
        = userApptCount tieDb u) ∧
    (view_stats { users := tieDb.users, appointments := apptOrphan :: tieDb.appointments }
        "2026-02-03").apptCount
      = (view_stats tieDb "2026-02-03").apptCount + 1 ∧
    (apptOrphan.date = "2026-02-03" →
      (view_stats { users := tieDb.users, appointments := apptOrphan :: tieDb.appointments }
          "2026-02-03").todayCount
        = (view_stats tieDb "2026-02-03").todayCount + 1) ∧
    sumUserCounts { users := tieDb.users, appointments := apptOrphan :: tieDb.appointments }
      < (view_stats { users := tieDb.users, appointments := apptOrphan :: tieDb.appointments }
          "2026-02-03").apptCount :=
  stats_orphan_counting tieDb apptOrphan "2026-02-03" (by decide) (by decide)

/-- C8, witness: searching `tieDb` for an absent email yields the not-found
notice containing that email. -/
theorem search_user_exact_match_witness :
    search_user tieDb "nobody@x.com"
      = SearchView.notFound ("❌ User not found: " ++ "nobody@x.com") :=
  (search_user_exact_match tieDb "nobody@x.com").1 (by decide)

end ViewDatabase
